import Mathlib

/-!
Verification of the Tello UDP flight-control client (`tello.py`).

The code is shallowly embedded: Python byte strings and byte lists become
`List Nat` (each element intended `< 256`); Python ints are `Nat`/`Int`;
Python floats on the telemetry path are embedded as exact rationals `ℚ`
(Python `round(q, 1)` is round-half-to-even on the decimal value; binary
floating-point representation noise at exact ties is not modelled — all
values exercised by the claims make the float arithmetic exact).
Fallible operations (`int.to_bytes` overflow, out-of-range indexing,
`bytes(...)` range checks, UTF-8 decode errors) are modelled with `Option`
or explicit guards that return the state reached so far, mirroring where
the Python exception is raised and what the `try/except` in the receive
loop preserves.
-/

/-- One LSB-first (reflected) CRC shift step with a given reversed polynomial.
`crcmod.mkCrcFun(poly, rev=True, ...)` builds the reflected table algorithm;
its per-byte table entry `table[i]` equals eight of these steps applied to `i`. -/
def crcStep (poly c : Nat) : Nat :=
  if c % 2 = 1 then (c / 2) ^^^ poly else c / 2

/-- Per-byte update of a reflected CRC: xor the byte into the register and
shift eight times.  For the 8-bit case this is exactly crcmod's
`crc = table[x ^ crc]`; for the 16-bit case it equals crcmod's
`crc = table[(x ^ crc) & 0xFF] ^ (crc >> 8)` because the step function is
linear over xor. -/
def crcByte (poly c b : Nat) : Nat :=
  (crcStep poly)^[8] (c ^^^ b)

/-- `crcmod.mkCrcFun(0x131, rev=True, initCrc=0x77, xorOut=0x00)`:
reflected CRC-8, reversed polynomial `0x8C` (bit-reverse of `0x31`),
initial register `0x77`. -/
def CRC8_FUNC (data : List Nat) : Nat :=
  data.foldl (crcByte 0x8C) 0x77

/-- `crcmod.mkCrcFun(0x11021, rev=True, initCrc=0x3692, xorOut=0x0000)`:
reflected CRC-16, reversed polynomial `0x8408` (bit-reverse of `0x1021`),
initial register `0x3692`. -/
def CRC16_FUNC (data : List Nat) : Nat :=
  data.foldl (crcByte 0x8408) 0x3692

/-- Little-endian two-byte encoding of a value already known to fit. -/
def le2 (n : Nat) : List Nat := [n % 256, n / 256 % 256]

/-- Python `n.to_bytes(2, 'little')`: raises `OverflowError` for `n ≥ 65536`. -/
def toBytes2 (n : Nat) : Option (List Nat) :=
  if n < 65536 then some (le2 n) else none

/-- Little-endian six-byte encoding of a value already known to fit. -/
def le6 (n : Nat) : List Nat :=
  [n % 256, n / 2 ^ 8 % 256, n / 2 ^ 16 % 256, n / 2 ^ 24 % 256,
   n / 2 ^ 32 % 256, n / 2 ^ 40 % 256]

/-- Python `n.to_bytes(6, 'little')`: raises `OverflowError` for `n ≥ 2^48`. -/
def toBytes6 (n : Nat) : Option (List Nat) :=
  if n < 2 ^ 48 then some (le6 n) else none

/-- `Tello.build_packet(pac_type, cmd_id, seq_id, data)`: header, payload
and both checksums, as a list of bytes; `none` models the exceptions Python
raises (`to_bytes` overflow, `bytes(...)` value out of byte range). -/
def build_packet (pac_type cmd_id seq_id : Nat) (data : List Nat) : Option (List Nat) := do
  let size := 11 + data.length
  let sizeB ← toBytes2 (size <<< 3)
  let c8 := CRC8_FUNC (0xcc :: sizeB)
  let cmdB ← toBytes2 cmd_id
  let seqB ← toBytes2 seq_id
  let body := 0xcc :: sizeB ++ c8 :: pac_type :: cmdB ++ seqB ++ data
  if body.all (fun b => b < 256) then
    let c16B ← toBytes2 (CRC16_FUNC body)
    some (body ++ c16B)
  else none

/-- Number of decimal digits of `n` as produced by Python `str` (`str(0) = "0"`).
Implemented with fuel for structural recursion; `n` itself is enough fuel. -/
def numDigitsAux : Nat → Nat → Nat
  | 0, _ => 1
  | fuel + 1, n => if n < 10 then 1 else numDigitsAux fuel (n / 10) + 1

/-- Decimal digit count of `n` (length of Python `str(n)` for `n ≥ 0`). -/
def numDigits (n : Nat) : Nat := numDigitsAux n n

/-- Python `int(f'{hi}{lo}')`: decimal string concatenation of the two
byte values, high byte first — equals `hi * 10 ^ (digits of lo) + lo`. -/
def decConcat (hi lo : Nat) : Nat := hi * 10 ^ numDigits lo + lo

/-- The four named commands of `Tello.CMD_LIST` / `Tello.PAC_TYPE_LIST`. -/
inductive Cmd
  | takeoff
  | land
  | stick
  | get_ssid
deriving DecidableEq

/-- `Tello.CMD_LIST`. -/
def CMD_LIST : Cmd → Nat
  | .takeoff => 84
  | .land => 85
  | .stick => 80
  | .get_ssid => 17

/-- `Tello.PAC_TYPE_LIST`. -/
def PAC_TYPE_LIST : Cmd → Nat
  | .takeoff => 0x68
  | .land => 0x68
  | .stick => 0x60
  | .get_ssid => 0x48

/-- The mutable fields of a `Tello` object (sequence counter plus the
drone state set by `init_state`).  `get_command` is dynamically typed in
Python (initialised to the int `0`, later assigned a string), hence the sum. -/
structure Tello where
  sequence : Nat
  speed : Nat
  ssid : String
  uptime : Nat
  height : Int
  x : ℚ
  y : ℚ
  z : ℚ
  vx : Int
  vy : Int
  vz : Int
  flytime : Nat
  battery : Nat
  wifi : Nat
  get_command : Nat ⊕ String
  rec_command_id : Nat

/-- State right after `Tello.__init__` runs `self.sequence = 1` and
`self.init_state()` (before `connect()` performs its first send). -/
def initTello : Tello where
  sequence := 1
  speed := 0
  ssid := "unknown"
  uptime := 0
  height := 0
  x := 0
  y := 0
  z := 0
  vx := 0
  vy := 0
  vz := 0
  flytime := 0
  battery := 0
  wifi := 0
  get_command := Sum.inl 0
  rec_command_id := 0

/-- `Tello.speed_switch`: `self.speed = int(not self.speed)`. -/
def speed_switch (st : Tello) : Tello :=
  { st with speed := if st.speed = 0 then 1 else 0 }

/-- `Tello.cie_reset`: `self.x = self.y = self.z = 0`. -/
def cie_reset (st : Tello) : Tello :=
  { st with x := 0, y := 0, z := 0 }

/-- `Tello.move_to(move)`: packs speed flag and the four channels into a
48-bit little-endian integer and appends the 5 clock bytes.  The wall clock
(`get_current_time`) is an external input, passed here as `timeB`;
`none` models the `OverflowError` of `to_bytes(6, ...)`. -/
def move_to (speed : Nat) (move : List Nat) (timeB : List Nat) : Option (List Nat) := do
  let m0 ← move.get? 0
  let m1 ← move.get? 1
  let m2 ← move.get? 2
  let m3 ← move.get? 3
  let stick_data := (speed <<< 44) + (m0 <<< 33) + (m1 <<< 22) + (m2 <<< 11) + m3
  let sb ← toBytes6 stick_data
  some (sb ++ timeB)

/-- `Tello.send_to(cmd, move)`: returns the object state after the call and
`some packet` when a frame was built and handed to the transport, or `none`
when an exception escaped to the caller.  On such an exception the returned
state keeps the mutations already performed (a failing stick send has
already reset the sequence counter). -/
def send_to (st : Tello) (cmd : Cmd) (move : List Nat) (timeB : List Nat) :
    Tello × Option (List Nat) :=
  let (st1, dataOpt) :=
    match cmd with
    | .land => (st, some [0x00])
    | .stick => ({ st with sequence := 0 }, move_to st.speed move timeB)
    | _ => (st, some ([] : List Nat))
  match dataOpt with
  | none => (st1, none)
  | some data =>
    match build_packet (PAC_TYPE_LIST cmd) (CMD_LIST cmd) st1.sequence data with
    | none => (st1, none)
    | some packet => ({ st1 with sequence := st1.sequence + 1 }, some packet)

/-- Python half-to-even rounding of an exact rational to an integer
(the semantics of `round` on a tie-free or exactly-representable value). -/
def rhe (q : ℚ) : Int :=
  let f : Int := ⌊q⌋
  if q - f < 1 / 2 then f
  else if 1 / 2 < q - f then f + 1
  else if f % 2 = 0 then f else f + 1

/-- Python `round(q, 1)` on an exact decimal value. -/
def round1 (q : ℚ) : ℚ := (rhe (10 * q) : ℚ) / 10

/-- `Tello.parse_data(rec)` (telemetry reduction for command id 86).
Each Python statement fires only if the byte indices it reads exist; the
first `IndexError` aborts the method, keeping the assignments already made
(the caller catches the exception), which the guard nesting reproduces. -/
def parse_data (st : Tello) (rec : List Nat) : Tello :=
  if 9 ≤ rec.length then
    let st := { st with uptime := rec.getD 7 0 + 255 * rec.getD 8 0 }
    if 11 ≤ rec.length then
      let st := { st with height := (rec.getD 9 0 : Int) - rec.getD 10 0 }
      if 13 ≤ rec.length then
        let st := { st with vy := (rec.getD 11 0 : Int) - rec.getD 12 0 }
        if 15 ≤ rec.length then
          let st := { st with vx := (rec.getD 13 0 : Int) - rec.getD 14 0 }
          if 17 ≤ rec.length then
            let st := { st with vz := -((rec.getD 15 0 : Int) - rec.getD 16 0) }
            let st := { st with x := st.x + round1 ((st.vx : ℚ) / 100) }
            let st := { st with y := st.y + round1 ((st.vy : ℚ) / 100) }
            let st := { st with z := st.z + round1 ((st.vz : ℚ) / 100) }
            if 19 ≤ rec.length then
              let st := { st with flytime := rec.getD 17 0 * rec.getD 18 0 }
              if 22 ≤ rec.length then
                let st := { st with battery := rec.getD 21 0 }
                if 28 ≤ rec.length then
                  { st with get_command :=
                      Sum.inr (Nat.repr (rec.getD 26 0) ++ " " ++ Nat.repr (rec.getD 27 0)) }
                else st
              else st
            else st
          else st
        else st
      else st
    else st
  else st

/-- Byte range test `lo ≤ b < hi`. -/
def inRange (lo hi b : Nat) : Bool := decide (lo ≤ b) && decide (b < hi)

/-- Continuation byte test for strict UTF-8 decoding. -/
def isCont (b : Nat) : Bool := inRange 0x80 0xC0 b

/-- Strict UTF-8 decoding to code points (CPython `bytes.decode('utf-8')`):
rejects invalid start bytes, truncated sequences, overlong forms,
surrogates and code points above `0x10FFFF`; `none` models
`UnicodeDecodeError`. -/
def utf8CodePoints : List Nat → Option (List Nat)
  | [] => some []
  | b :: rest =>
    if b < 0x80 then (utf8CodePoints rest).map (b :: ·)
    else if b < 0xC2 then none
    else if b < 0xE0 then
      match rest with
      | b1 :: rest1 =>
        if isCont b1 then
          (utf8CodePoints rest1).map (((b - 0xC0) * 0x40 + (b1 - 0x80)) :: ·)
        else none
      | _ => none
    else if b < 0xF0 then
      match rest with
      | b1 :: b2 :: rest2 =>
        if ((if b = 0xE0 then inRange 0xA0 0xC0 b1
             else if b = 0xED then inRange 0x80 0xA0 b1
             else isCont b1) && isCont b2) then
          (utf8CodePoints rest2).map
            (((b - 0xE0) * 0x1000 + (b1 - 0x80) * 0x40 + (b2 - 0x80)) :: ·)
        else none
      | _ => none
    else if b < 0xF5 then
      match rest with
      | b1 :: b2 :: b3 :: rest3 =>
        if ((if b = 0xF0 then inRange 0x90 0xC0 b1
             else if b = 0xF4 then inRange 0x80 0x90 b1
             else isCont b1) && isCont b2 && isCont b3) then
          (utf8CodePoints rest3).map
            (((b - 0xF0) * 0x40000 + (b1 - 0x80) * 0x1000 + (b2 - 0x80) * 0x40 + (b3 - 0x80)) :: ·)
        else none
      | _ => none
    else none

/-- Python `data[11:-2].decode('utf-8')` turned into a `String`. -/
def ssidOfBytes (data : List Nat) : Option String :=
  (utf8CodePoints ((data.take (data.length - 2)).drop 11)).map
    (fun cps => String.mk (cps.map Char.ofNat))

/-- One iteration of the `Tello.receive_data` loop body applied to one
datagram.  The surrounding `try/except` catches every exception, keeping
the mutations performed before it was raised, so the step is total; the
infinite socket loop is modelled as a fold of this step over the incoming
datagrams. -/
def receive_data (st : Tello) (data : List Nat) : Tello :=
  match data.get? 5, data.get? 6 with
  | some b5, some b6 =>
    let cid := decConcat b6 b5
    let st1 := { st with rec_command_id := cid }
    if cid = 17 then
      match ssidOfBytes data with
      | some s => { st1 with ssid := s }
      | none => st1
    else if cid = 26 then
      match data.get? 9, data.get? 10 with
      | some b9, some b10 => { st1 with wifi := decConcat b10 b9 }
      | _, _ => st1
    else if cid = 86 then
      parse_data st1 data
    else st1
  | _, _ => st

set_option maxRecDepth 16000

/-! ### Helper lemmas about the checksum engine -/

theorem crcStep_lt {k poly c : Nat} (hpoly : poly < 2 ^ k) (hc : c < 2 ^ k) :
    crcStep poly c < 2 ^ k := by
  unfold crcStep
  split
  · exact Nat.xor_lt_two_pow (lt_of_le_of_lt (Nat.div_le_self c 2) hc) hpoly
  · exact lt_of_le_of_lt (Nat.div_le_self c 2) hc

theorem crcByte_lt {k poly c b : Nat} (hpoly : poly < 2 ^ k) (hc : c < 2 ^ k)
    (hb : b < 2 ^ k) : crcByte poly c b < 2 ^ k := by
  unfold crcByte
  have h0 : c ^^^ b < 2 ^ k := Nat.xor_lt_two_pow hc hb
  have : ∀ n x, x < 2 ^ k → (crcStep poly)^[n] x < 2 ^ k := by
    intro n
    induction n with
    | zero => intro x hx; simpa using hx
    | succ m ih =>
      intro x hx
      rw [Function.iterate_succ_apply]
      exact ih _ (crcStep_lt hpoly hx)
  exact this 8 _ h0

theorem crc_foldl_lt {k poly init : Nat} (hpoly : poly < 2 ^ k) (hinit : init < 2 ^ k)
    (l : List Nat) (hl : ∀ b ∈ l, b < 2 ^ k) :
    l.foldl (crcByte poly) init < 2 ^ k := by
  induction l generalizing init with
  | nil => simpa using hinit
  | cons b t ih =>
    rw [List.foldl_cons]
    exact ih (crcByte_lt hpoly hinit (hl b (by simp))) (fun x hx => hl x (by simp [hx]))

theorem CRC8_FUNC_lt (l : List Nat) (hl : ∀ b ∈ l, b < 256) : CRC8_FUNC l < 256 :=
  crc_foldl_lt (k := 8) (by norm_num) (by norm_num) l (by simpa using hl)

theorem CRC16_FUNC_lt (l : List Nat) (hl : ∀ b ∈ l, b < 256) : CRC16_FUNC l < 65536 :=
  crc_foldl_lt (k := 16) (by norm_num) (by norm_num) l
    (fun b hb => lt_of_lt_of_le (hl b hb) (by norm_num))

/-! ### The encoded frame, written out -/

/-- The first `9 + data.length` bytes of the frame `build_packet` builds
(everything except the trailing CRC16 bytes). -/
def packetBody (pt cmd seq : Nat) (data : List Nat) : List Nat :=
  0xcc :: le2 ((11 + data.length) <<< 3) ++
    CRC8_FUNC (0xcc :: le2 ((11 + data.length) <<< 3)) :: pt :: le2 cmd ++ le2 seq ++ data

theorem packetBody_length (pt cmd seq : Nat) (data : List Nat) :
    (packetBody pt cmd seq data).length = 9 + data.length := by
  simp [packetBody, le2]
  omega

theorem packetBody_all (pt cmd seq : Nat) (data : List Nat)
    (h1 : pt < 256) (h5 : ∀ b ∈ data, b < 256) :
    (packetBody pt cmd seq data).all (fun b => b < 256) = true := by
  have hcrc : CRC8_FUNC (0xcc :: le2 ((11 + data.length) <<< 3)) < 256 := by
    apply CRC8_FUNC_lt
    intro b hb
    simp [le2] at hb
    rcases hb with h | h | h <;> omega
  simp only [packetBody, le2, List.all_eq_true]
  intro b hb
  simp at hb
  rcases hb with h | h | h | h | h | h | h | h | h | h
  all_goals first
  | (simp [h]; omega)
  | (subst h; simp; omega)
  | (subst h; simpa using hcrc)
  | (subst h; simpa using h1)
  | (exact by simpa using h5 b h)

theorem build_packet_eq (pt cmd seq : Nat) (data : List Nat)
    (h1 : pt < 256) (h2 : cmd < 65536) (h3 : seq < 65536)
    (h4 : data.length ≤ 8180) (h5 : ∀ b ∈ data, b < 256) :
    build_packet pt cmd seq data =
      some (packetBody pt cmd seq data ++
        le2 (CRC16_FUNC (packetBody pt cmd seq data))) := by
  have hsize : (11 + data.length) <<< 3 < 65536 := by
    rw [Nat.shiftLeft_eq]
    omega
  have hc16 : CRC16_FUNC (packetBody pt cmd seq data) < 65536 := by
    apply CRC16_FUNC_lt
    intro b hb
    have := packetBody_all pt cmd seq data h1 h5
    rw [List.all_eq_true] at this
    simpa using this b hb
  have hall := packetBody_all pt cmd seq data h1 h5
  simp only [build_packet, toBytes2, if_pos hsize, if_pos h2, if_pos h3,
    Option.bind_eq_bind, Option.some_bind]
  rw [show (0xcc : Nat) :: le2 ((11 + data.length) <<< 3) ++
      CRC8_FUNC (0xcc :: le2 ((11 + data.length) <<< 3)) :: pt :: le2 cmd ++ le2 seq ++ data
      = packetBody pt cmd seq data from rfl]
  rw [hall]
  simp only [if_pos hc16, if_true, Option.some_bind]

theorem packetBody_cons (pt cmd seq : Nat) (data : List Nat) :
    packetBody pt cmd seq data =
      0xcc :: (((11 + data.length) <<< 3) % 256) :: (((11 + data.length) <<< 3) / 256 % 256) ::
        CRC8_FUNC (0xcc :: le2 ((11 + data.length) <<< 3)) :: pt ::
        (cmd % 256) :: (cmd / 256 % 256) :: (seq % 256) :: (seq / 256 % 256) :: data := by
  simp [packetBody, le2]

/-- Claim C1: for every command descriptor and payload accepted by the
serializer, `build_packet` returns a frame of exactly `11 + len(payload)`
bytes with the fixed layout — sync byte `0xCC`, little-endian
`(total length << 3)`, CRC8 of bytes 0–2, packet type, little-endian
command id, little-endian sequence number, the payload at bytes 9..N-3,
and the little-endian CRC16 of all preceding bytes in the last two bytes —
so both embedded checksums validate over the returned bytes. -/
theorem claim1_encoder_layout (pt cmd seq : Nat) (data p : List Nat)
    (h1 : pt < 256) (h2 : cmd < 65536) (h3 : seq < 65536)
    (h4 : data.length ≤ 8180) (h5 : ∀ b ∈ data, b < 256)
    (hp : build_packet pt cmd seq data = some p) :
    p.length = 11 + data.length ∧
    p.getD 0 0 = 0xcc ∧
    p.getD 1 0 + 256 * p.getD 2 0 = (11 + data.length) <<< 3 ∧
    p.getD 3 0 = CRC8_FUNC (p.take 3) ∧
    p.getD 4 0 = pt ∧
    p.getD 5 0 + 256 * p.getD 6 0 = cmd ∧
    p.getD 7 0 + 256 * p.getD 8 0 = seq ∧
    (p.drop 9).take data.length = data ∧
    p.drop (p.length - 2) = le2 (CRC16_FUNC (p.take (p.length - 2))) := by
  rw [build_packet_eq pt cmd seq data h1 h2 h3 h4 h5] at hp
  have hps : p = packetBody pt cmd seq data ++
      le2 (CRC16_FUNC (packetBody pt cmd seq data)) := by
    exact (Option.some.injEq _ _).mp hp.symm
  have hlen : p.length = 11 + data.length := by
    rw [hps, List.length_append, packetBody_length]
    simp [le2]
    omega
  have hsize : (11 + data.length) <<< 3 < 65536 := by
    rw [Nat.shiftLeft_eq]; omega
  have hidx : p.length - 2 = (packetBody pt cmd seq data).length := by
    rw [hlen, packetBody_length]
    omega
  have hcons : p =
      0xcc :: (((11 + data.length) <<< 3) % 256) :: (((11 + data.length) <<< 3) / 256 % 256) ::
        CRC8_FUNC (0xcc :: le2 ((11 + data.length) <<< 3)) :: pt ::
        (cmd % 256) :: (cmd / 256 % 256) :: (seq % 256) :: (seq / 256 % 256) ::
        (data ++ le2 (CRC16_FUNC (packetBody pt cmd seq data))) := by
    rw [hps, packetBody_cons]
    simp
  refine ⟨hlen, ?_, ?_, ?_, ?_, ?_, ?_, ?_, ?_⟩
  · rw [hcons]; rfl
  · rw [hcons]
    show ((11 + data.length) <<< 3) % 256 + 256 * (((11 + data.length) <<< 3) / 256 % 256) =
      (11 + data.length) <<< 3
    omega
  · rw [hcons]; rfl
  · rw [hcons]; rfl
  · rw [hcons]
    show cmd % 256 + 256 * (cmd / 256 % 256) = cmd
    omega
  · rw [hcons]
    show seq % 256 + 256 * (seq / 256 % 256) = seq
    omega
  · rw [hcons]
    show (data ++ le2 (CRC16_FUNC (packetBody pt cmd seq data))).take data.length = data
    exact List.take_left data _
  · rw [hidx, hps, List.drop_left, List.take_left]

/-- Witness for C1: the concrete takeoff frame at sequence 1 (empty payload). -/
theorem claim1_encoder_layout_witness :
    ([204, 88, 0, 124, 104, 84, 0, 1, 0, 106, 144] : List Nat).length = 11 + ([] : List Nat).length ∧
    ([204, 88, 0, 124, 104, 84, 0, 1, 0, 106, 144] : List Nat).getD 0 0 = 0xcc ∧
    ([204, 88, 0, 124, 104, 84, 0, 1, 0, 106, 144] : List Nat).getD 1 0 +
      256 * ([204, 88, 0, 124, 104, 84, 0, 1, 0, 106, 144] : List Nat).getD 2 0 =
      (11 + ([] : List Nat).length) <<< 3 ∧
    ([204, 88, 0, 124, 104, 84, 0, 1, 0, 106, 144] : List Nat).getD 3 0 =
      CRC8_FUNC (([204, 88, 0, 124, 104, 84, 0, 1, 0, 106, 144] : List Nat).take 3) ∧
    ([204, 88, 0, 124, 104, 84, 0, 1, 0, 106, 144] : List Nat).getD 4 0 = 0x68 ∧
    ([204, 88, 0, 124, 104, 84, 0, 1, 0, 106, 144] : List Nat).getD 5 0 +
      256 * ([204, 88, 0, 124, 104, 84, 0, 1, 0, 106, 144] : List Nat).getD 6 0 = 84 ∧
    ([204, 88, 0, 124, 104, 84, 0, 1, 0, 106, 144] : List Nat).getD 7 0 +
      256 * ([204, 88, 0, 124, 104, 84, 0, 1, 0, 106, 144] : List Nat).getD 8 0 = 1 ∧
    (([204, 88, 0, 124, 104, 84, 0, 1, 0, 106, 144] : List Nat).drop 9).take
      ([] : List Nat).length = ([] : List Nat) ∧
    ([204, 88, 0, 124, 104, 84, 0, 1, 0, 106, 144] : List Nat).drop
        (([204, 88, 0, 124, 104, 84, 0, 1, 0, 106, 144] : List Nat).length - 2) =
      le2 (CRC16_FUNC (([204, 88, 0, 124, 104, 84, 0, 1, 0, 106, 144] : List Nat).take
        (([204, 88, 0, 124, 104, 84, 0, 1, 0, 106, 144] : List Nat).length - 2))) :=
  claim1_encoder_layout 0x68 84 1 [] [204, 88, 0, 124, 104, 84, 0, 1, 0, 106, 144]
    (by norm_num) (by norm_num) (by norm_num) (by simp) (by simp) (by decide)

/-! ### Helper lemmas about the send path -/

/-- Anatomy of a successfully built packet: whatever the inputs were, a
`some` result forces the size and id guards and fixes the byte layout. -/
theorem build_packet_inv (pt cmd seq : Nat) (data p : List Nat)
    (hp : build_packet pt cmd seq data = some p) :
    seq < 65536 ∧ cmd < 65536 ∧
    p = packetBody pt cmd seq data ++ le2 (CRC16_FUNC (packetBody pt cmd seq data)) := by
  by_cases h1 : (11 + data.length) <<< 3 < 65536
  · by_cases h2 : cmd < 65536
    · by_cases h3 : seq < 65536
      · by_cases h4 : (packetBody pt cmd seq data).all (fun b => b < 256) = true
        · by_cases h5 : CRC16_FUNC (packetBody pt cmd seq data) < 65536
          · refine ⟨h3, h2, ?_⟩
            simp only [build_packet, toBytes2, if_pos h1, if_pos h2, if_pos h3,
              Option.bind_eq_bind, Option.some_bind] at hp
            rw [show (0xcc : Nat) :: le2 ((11 + data.length) <<< 3) ++
                CRC8_FUNC (0xcc :: le2 ((11 + data.length) <<< 3)) :: pt :: le2 cmd ++
                  le2 seq ++ data = packetBody pt cmd seq data from rfl] at hp
            rw [h4, if_pos h5] at hp
            simpa using hp.symm
          · exfalso
            exact h5 (CRC16_FUNC_lt _ (by
              intro b hb
              have := h4
              rw [List.all_eq_true] at this
              simpa using this b hb))
        · exfalso
          simp only [build_packet, toBytes2, if_pos h1, if_pos h2, if_pos h3,
            Option.bind_eq_bind, Option.some_bind] at hp
          rw [show (0xcc : Nat) :: le2 ((11 + data.length) <<< 3) ++
              CRC8_FUNC (0xcc :: le2 ((11 + data.length) <<< 3)) :: pt :: le2 cmd ++
                le2 seq ++ data = packetBody pt cmd seq data from rfl] at hp
          rw [Bool.not_eq_true] at h4
          rw [h4] at hp
          simp at hp
      · simp [build_packet, toBytes2, h1, h2, h3] at hp
    · simp [build_packet, toBytes2, h1, h2] at hp
  · simp [build_packet, toBytes2, h1] at hp

/-- A sequence value that does not fit in two bytes makes `build_packet`
raise (`OverflowError` in `seq_id.to_bytes(2, 'little')`). -/
theorem build_packet_seq_overflow (pt cmd seq : Nat) (data : List Nat)
    (h : 65536 ≤ seq) : build_packet pt cmd seq data = none := by
  by_cases h1 : (11 + data.length) <<< 3 < 65536
  · by_cases h2 : cmd < 65536
    · simp [build_packet, toBytes2, h1, h2, Nat.not_lt.mpr h]
    · simp [build_packet, toBytes2, h1, h2]
  · simp [build_packet, toBytes2, h1]

/-- `send_to` on a non-stick command: payload and sequence handling made
explicit (no state mutation beyond the post-send increment). -/
theorem send_to_nonstick_eq (st : Tello) (cmd : Cmd) (move timeB : List Nat)
    (hc : cmd ≠ Cmd.stick) :
    send_to st cmd move timeB =
      match build_packet (PAC_TYPE_LIST cmd) (CMD_LIST cmd) st.sequence
          (if cmd = Cmd.land then [0x00] else []) with
      | none => (st, none)
      | some packet => ({ st with sequence := st.sequence + 1 }, some packet) := by
  cases cmd
  · rfl
  · rfl
  · exact absurd rfl hc
  · rfl

theorem packet_seq_field (pt cmd seq : Nat) (data p : List Nat)
    (hp : build_packet pt cmd seq data = some p) :
    p.getD 7 0 + 256 * p.getD 8 0 = seq := by
  obtain ⟨h3, -, rfl⟩ := build_packet_inv pt cmd seq data p hp
  rw [packetBody_cons]
  simp only [List.cons_append, List.getD_cons_succ, List.getD_cons_zero]
  omega

theorem PAC_TYPE_LIST_lt (cmd : Cmd) : PAC_TYPE_LIST cmd < 256 := by
  cases cmd <;> decide

theorem CMD_LIST_lt (cmd : Cmd) : CMD_LIST cmd < 65536 := by
  cases cmd <;> decide

/-- The payload of a non-stick command is `[0x00]` for `land`, else empty;
its bytes and length satisfy the serializer's guards. -/
theorem nonstick_data_ok (cmd : Cmd) :
    (if cmd = Cmd.land then [0x00] else ([] : List Nat)).length ≤ 8180 ∧
    ∀ b ∈ (if cmd = Cmd.land then [0x00] else ([] : List Nat)), b < 256 := by
  split <;> simp

/-- A non-stick send with an in-range sequence counter builds its frame and
increments the counter. -/
theorem send_to_nonstick_ok (st : Tello) (cmd : Cmd) (move timeB : List Nat)
    (hc : cmd ≠ Cmd.stick) (hs : st.sequence < 65536) :
    send_to st cmd move timeB =
      ({ st with sequence := st.sequence + 1 },
        some (packetBody (PAC_TYPE_LIST cmd) (CMD_LIST cmd) st.sequence
            (if cmd = Cmd.land then [0x00] else []) ++
          le2 (CRC16_FUNC (packetBody (PAC_TYPE_LIST cmd) (CMD_LIST cmd) st.sequence
            (if cmd = Cmd.land then [0x00] else []))))) := by
  obtain ⟨hlen, hbytes⟩ := nonstick_data_ok cmd
  rw [send_to_nonstick_eq st cmd move timeB hc,
    build_packet_eq _ _ _ _ (PAC_TYPE_LIST_lt cmd) (CMD_LIST_lt cmd) hs hlen hbytes]

/-- A non-stick send with an overflowing sequence counter raises, leaving
the state unchanged. -/
theorem send_to_nonstick_overflow (st : Tello) (cmd : Cmd) (move timeB : List Nat)
    (hc : cmd ≠ Cmd.stick) (hs : 65536 ≤ st.sequence) :
    send_to st cmd move timeB = (st, none) := by
  rw [send_to_nonstick_eq st cmd move timeB hc, build_packet_seq_overflow _ _ _ _ hs]

/-- Claim C3: the sequence counter starts at 1; a non-stick send transmits
the current counter value in bytes 7–8 of the frame and then increments the
counter by 1 (hence strictly increasing numbers across consecutive
non-stick sends); a stick send transmits sequence 0 and leaves the counter
at 1, so the following non-stick send continues from 1 above the reset value. -/
theorem claim3_sequence_discipline :
    initTello.sequence = 1 ∧
    (∀ st : Tello, ∀ cmd : Cmd, ∀ move timeB : List Nat,
      cmd ≠ Cmd.stick → st.sequence < 65536 →
      ((send_to st cmd move timeB).2.getD []).getD 7 0 +
          256 * ((send_to st cmd move timeB).2.getD []).getD 8 0 = st.sequence ∧
        (send_to st cmd move timeB).1.sequence = st.sequence + 1) ∧
    (∀ st : Tello, ∀ move timeB p : List Nat,
      (send_to st Cmd.stick move timeB).2 = some p →
      p.getD 7 0 + 256 * p.getD 8 0 = 0 ∧
        (send_to st Cmd.stick move timeB).1.sequence = 1) := by
  refine ⟨rfl, ?_, ?_⟩
  · intro st cmd move timeB hc hs
    rw [send_to_nonstick_ok st cmd move timeB hc hs]
    refine ⟨?_, rfl⟩
    exact packet_seq_field _ _ _ _ _
      (build_packet_eq _ _ _ _ (PAC_TYPE_LIST_lt cmd) (CMD_LIST_lt cmd) hs
        (nonstick_data_ok cmd).1 (nonstick_data_ok cmd).2)
  · intro st move timeB p hp
    rcases hmv : move_to st.speed move timeB with - | d
    · rw [show (send_to st Cmd.stick move timeB) =
        ({ st with sequence := 0 }, none) from by simp [send_to, hmv]] at hp
      simp at hp
    · rcases hbp : build_packet (PAC_TYPE_LIST Cmd.stick) (CMD_LIST Cmd.stick) 0 d with - | q
      · rw [show (send_to st Cmd.stick move timeB) =
          ({ st with sequence := 0 }, none) from by simp [send_to, hmv, hbp]] at hp
        simp at hp
      · have hsend : send_to st Cmd.stick move timeB =
            ({ st with sequence := 1 }, some q) := by
          simp [send_to, hmv, hbp]
        rw [hsend] at hp
        simp at hp
        subst hp
        exact ⟨packet_seq_field _ _ _ _ _ hbp, by rw [hsend]⟩

/-- Witness for C3: takeoff from the freshly initialised session transmits
sequence 1 and leaves the counter at 2. -/
theorem claim3_sequence_discipline_witness :
    ((send_to initTello Cmd.takeoff [] []).2.getD []).getD 7 0 +
        256 * ((send_to initTello Cmd.takeoff [] []).2.getD []).getD 8 0 = 1 ∧
      (send_to initTello Cmd.takeoff [] []).1.sequence = 1 + 1 :=
  claim3_sequence_discipline.2.1 initTello Cmd.takeoff [] [] (by decide) (by decide)

/-- Iterated sends with the caller retrying on failure: each step takes the
state `send_to` leaves behind (the default neutral move vector is passed,
as in Python, and the clock is irrelevant for non-stick commands). -/
def sendLoop (st : Tello) (cs : List Cmd) : Tello :=
  cs.foldl (fun s c => (send_to s c [1024, 1024, 1024, 1024] []).1) st

theorem sendLoop_sequence (cs : List Cmd) (st : Tello)
    (hcs : ∀ c ∈ cs, c ≠ Cmd.stick) (hs : st.sequence ≤ 65536) :
    (sendLoop st cs).sequence = min (st.sequence + cs.length) 65536 := by
  induction cs generalizing st with
  | nil =>
    simp [sendLoop]
    omega
  | cons c t ih =>
    have hc : c ≠ Cmd.stick := hcs c (by simp)
    have ht : ∀ c' ∈ t, c' ≠ Cmd.stick := fun c' hc' => hcs c' (by simp [hc'])
    rcases lt_or_ge st.sequence 65536 with hlt | hge
    · have hstep : (send_to st c [1024, 1024, 1024, 1024] []).1 =
          { st with sequence := st.sequence + 1 } := by
        rw [send_to_nonstick_ok st c _ _ hc hlt]
      rw [sendLoop, List.foldl_cons, hstep]
      have := ih { st with sequence := st.sequence + 1 } ht
        (by show st.sequence + 1 ≤ 65536; omega)
      rw [sendLoop] at this
      rw [this]
      show min (st.sequence + 1 + t.length) 65536 = min (st.sequence + (t.length + 1)) 65536
      omega
    · have heq : st.sequence = 65536 := by omega
      have hstep : (send_to st c [1024, 1024, 1024, 1024] []).1 = st := by
        rw [send_to_nonstick_overflow st c _ _ hc hge]
      rw [sendLoop, List.foldl_cons, hstep]
      have := ih st ht (by omega)
      rw [sendLoop] at this
      rw [this]
      omega

/-- Claim C10: the encoder stores the sequence number in exactly two bytes,
so a non-stick send succeeds precisely when the counter is at most 65535;
after 65536 or more consecutive non-stick sends from a fresh session the
counter is stuck at 65536 and every further send fails (the two-byte
serialization raises) instead of wrapping. -/
theorem claim10_two_byte_sequence_bound :
    (∀ st : Tello, ∀ cmd : Cmd, ∀ move timeB : List Nat, cmd ≠ Cmd.stick →
      (((send_to st cmd move timeB).2).isSome = true ↔ st.sequence < 65536)) ∧
    (∀ cs : List Cmd, (∀ c ∈ cs, c ≠ Cmd.stick) → 65536 ≤ cs.length →
      ∀ cmd : Cmd, ∀ move timeB : List Nat, cmd ≠ Cmd.stick →
        (send_to (sendLoop initTello cs) cmd move timeB).2 = none) := by
  constructor
  · intro st cmd move timeB hc
    constructor
    · intro hsome
      by_contra hge
      rw [send_to_nonstick_overflow st cmd move timeB hc (by omega)] at hsome
      simp at hsome
    · intro hlt
      rw [send_to_nonstick_ok st cmd move timeB hc hlt]
      rfl
  · intro cs hcs hlen cmd move timeB hc
    have hseq : (sendLoop initTello cs).sequence = 65536 := by
      rw [sendLoop_sequence cs initTello hcs (by decide)]
      show min (1 + cs.length) 65536 = 65536
      omega
    rw [send_to_nonstick_overflow _ cmd move timeB hc (by omega)]

/-- Witness for C10: after 65536 takeoff sends the next land send fails. -/
theorem claim10_two_byte_sequence_bound_witness :
    (send_to (sendLoop initTello (List.replicate 65536 Cmd.takeoff)) Cmd.land [] []).2 = none :=
  claim10_two_byte_sequence_bound.2 (List.replicate 65536 Cmd.takeoff)
    (fun c hc => by rw [List.eq_of_mem_replicate hc]; intro h; cases h)
    (by rw [List.length_replicate]) Cmd.land [] [] (by intro h; cases h)

/-! ### Bit-packing of the stick payload -/

theorem shiftLeft_add_eq_lor (x y k : Nat) (hy : y < 2 ^ k) :
    x <<< k ||| y = x <<< k + y := by
  apply Nat.eq_of_testBit_eq
  intro j
  have hadd : (x <<< k + y).testBit j =
      if j < k then y.testBit j else x.testBit (j - k) := by
    rw [Nat.shiftLeft_eq, Nat.mul_comm]
    exact Nat.testBit_mul_pow_two_add x hy j
  rw [Nat.testBit_lor, hadd, Nat.testBit_shiftLeft]
  rcases lt_or_ge j k with h | h
  · have h2 : ¬ j ≥ k := by omega
    simp [if_pos h, h2]
  · have hyj : y.testBit j = false :=
      Nat.testBit_lt_two_pow (lt_of_lt_of_le hy (Nat.pow_le_pow_right (by norm_num) h))
    have h2 : ¬ j < k := by omega
    simp [if_neg h2, h, hyj]

/-- The sum the code computes in `move_to` equals the bitwise-or packing of
the specification whenever the speed flag is a single bit and each channel
fits in 11 bits (the fields then occupy disjoint bit ranges). -/
theorem stick_pack_add_eq_lor (speed c0 c1 c2 c3 : Nat)
    (hs : speed ≤ 1) (h0 : c0 ≤ 2047) (h1 : c1 ≤ 2047) (h2 : c2 ≤ 2047) (h3 : c3 ≤ 2047) :
    (speed <<< 44) + (c0 <<< 33) + (c1 <<< 22) + (c2 <<< 11) + c3 =
      (speed <<< 44) ||| (c0 <<< 33) ||| (c1 <<< 22) ||| (c2 <<< 11) ||| c3 := by
  have e44 : speed <<< 44 = speed * 2 ^ 44 := Nat.shiftLeft_eq speed 44
  have e33 : c0 <<< 33 = c0 * 2 ^ 33 := Nat.shiftLeft_eq c0 33
  have e22 : c1 <<< 22 = c1 * 2 ^ 22 := Nat.shiftLeft_eq c1 22
  have e11 : c2 <<< 11 = c2 * 2 ^ 11 := Nat.shiftLeft_eq c2 11
  have hA : (c2 <<< 11) ||| c3 = c2 <<< 11 + c3 :=
    shiftLeft_add_eq_lor c2 c3 11 (by omega)
  have hBbound : c2 <<< 11 + c3 < 2 ^ 22 := by rw [e11]; norm_num; omega
  have hB : (c1 <<< 22) ||| (c2 <<< 11 + c3) = c1 <<< 22 + (c2 <<< 11 + c3) :=
    shiftLeft_add_eq_lor c1 _ 22 hBbound
  have hCbound : c1 <<< 22 + (c2 <<< 11 + c3) < 2 ^ 33 := by
    rw [e22, e11]; norm_num; omega
  have hC : (c0 <<< 33) ||| (c1 <<< 22 + (c2 <<< 11 + c3)) =
      c0 <<< 33 + (c1 <<< 22 + (c2 <<< 11 + c3)) :=
    shiftLeft_add_eq_lor c0 _ 33 hCbound
  have hDbound : c0 <<< 33 + (c1 <<< 22 + (c2 <<< 11 + c3)) < 2 ^ 44 := by
    rw [e33, e22, e11]; norm_num; omega
  have hD : (speed <<< 44) ||| (c0 <<< 33 + (c1 <<< 22 + (c2 <<< 11 + c3))) =
      speed <<< 44 + (c0 <<< 33 + (c1 <<< 22 + (c2 <<< 11 + c3))) :=
    shiftLeft_add_eq_lor speed _ 44 hDbound
  calc (speed <<< 44) + (c0 <<< 33) + (c1 <<< 22) + (c2 <<< 11) + c3
      = speed <<< 44 + (c0 <<< 33 + (c1 <<< 22 + (c2 <<< 11 + c3))) := by omega
    _ = (speed <<< 44) ||| (c0 <<< 33 + (c1 <<< 22 + (c2 <<< 11 + c3))) := hD.symm
    _ = (speed <<< 44) ||| ((c0 <<< 33) ||| (c1 <<< 22 + (c2 <<< 11 + c3))) := by rw [hC]
    _ = (speed <<< 44) ||| ((c0 <<< 33) ||| ((c1 <<< 22) ||| (c2 <<< 11 + c3))) := by rw [hB]
    _ = (speed <<< 44) ||| ((c0 <<< 33) ||| ((c1 <<< 22) ||| ((c2 <<< 11) ||| c3))) := by rw [hA]
    _ = (speed <<< 44) ||| (c0 <<< 33) ||| (c1 <<< 22) ||| (c2 <<< 11) ||| c3 := by
        rw [Nat.lor_assoc, Nat.lor_assoc, Nat.lor_assoc]

/-- Claim C5: for a speed flag in {0,1} and channels in [0, 2047], the stick
payload is exactly 11 bytes whose first 6 bytes are the little-endian
encoding of `(speed << 44) | (c0 << 33) | (c1 << 22) | (c2 << 11) | c3`;
with the default neutral vector (all channels 1024) and speed flag 0 the
prefix is the hand-computed reference `00 04 20 00 01 08`. -/
theorem claim5_stick_payload (speed c0 c1 c2 c3 : Nat) (timeB d : List Nat)
    (hs : speed ≤ 1) (h0 : c0 ≤ 2047) (h1 : c1 ≤ 2047) (h2 : c2 ≤ 2047) (h3 : c3 ≤ 2047)
    (ht : timeB.length = 5)
    (hd : move_to speed [c0, c1, c2, c3] timeB = some d) :
    d.length = 11 ∧
    d.take 6 = le6 ((speed <<< 44) ||| (c0 <<< 33) ||| (c1 <<< 22) ||| (c2 <<< 11) ||| c3) ∧
    ((move_to 0 [1024, 1024, 1024, 1024] timeB).getD []).take 6 =
      [0x00, 0x04, 0x20, 0x00, 0x01, 0x08] := by
  have hbound : (speed <<< 44) + (c0 <<< 33) + (c1 <<< 22) + (c2 <<< 11) + c3 < 2 ^ 48 := by
    rw [Nat.shiftLeft_eq, Nat.shiftLeft_eq, Nat.shiftLeft_eq, Nat.shiftLeft_eq]
    norm_num
    omega
  have hd' : d = le6 ((speed <<< 44) + (c0 <<< 33) + (c1 <<< 22) + (c2 <<< 11) + c3)
      ++ timeB := by
    simp only [move_to, List.get?_cons_zero, List.get?_cons_succ, Option.some_bind,
      Option.bind_eq_bind, toBytes6, if_pos hbound] at hd
    exact ((Option.some.injEq _ _).mp hd).symm
  have hne : toBytes6 ((0 <<< 44) + (1024 <<< 33) + (1024 <<< 22) + (1024 <<< 11) + 1024) =
      some [0x00, 0x04, 0x20, 0x00, 0x01, 0x08] := by decide
  have hneutral : move_to 0 [1024, 1024, 1024, 1024] timeB =
      some ([0x00, 0x04, 0x20, 0x00, 0x01, 0x08] ++ timeB) := by
    simp only [move_to, List.get?_cons_zero, List.get?_cons_succ, Option.some_bind,
      Option.bind_eq_bind, hne]
  refine ⟨?_, ?_, ?_⟩
  · rw [hd']
    simp [le6, ht]
  · rw [hd', ← stick_pack_add_eq_lor speed c0 c1 c2 c3 hs h0 h1 h2 h3]
    have := List.take_left
      (le6 ((speed <<< 44) + (c0 <<< 33) + (c1 <<< 22) + (c2 <<< 11) + c3)) timeB
    simpa [le6] using this
  · rw [hneutral]
    have := List.take_left ([0x00, 0x04, 0x20, 0x00, 0x01, 0x08] : List Nat) timeB
    simpa using this

/-- Witness for C5: the neutral stick payload with a zero clock. -/
theorem claim5_stick_payload_witness :
    ([0, 4, 32, 0, 1, 8, 0, 0, 0, 0, 0] : List Nat).length = 11 ∧
    ([0, 4, 32, 0, 1, 8, 0, 0, 0, 0, 0] : List Nat).take 6 =
      le6 ((0 <<< 44) ||| (1024 <<< 33) ||| (1024 <<< 22) ||| (1024 <<< 11) ||| 1024) ∧
    ((move_to 0 [1024, 1024, 1024, 1024] [0, 0, 0, 0, 0]).getD []).take 6 =
      [0x00, 0x04, 0x20, 0x00, 0x01, 0x08] :=
  claim5_stick_payload 0 1024 1024 1024 1024 [0, 0, 0, 0, 0]
    [0, 4, 32, 0, 1, 8, 0, 0, 0, 0, 0]
    (by norm_num) (by norm_num) (by norm_num) (by norm_num) (by norm_num)
    (by simp) (by decide)

/-- Claim C9: `cie_reset` (reset_position) zeroes the integrated x/y/z
fields and leaves every other state field unchanged. -/
theorem claim9_reset_position (st : Tello) :
    (cie_reset st).x = 0 ∧ (cie_reset st).y = 0 ∧ (cie_reset st).z = 0 ∧
    (cie_reset st).sequence = st.sequence ∧
    (cie_reset st).speed = st.speed ∧
    (cie_reset st).ssid = st.ssid ∧
    (cie_reset st).uptime = st.uptime ∧
    (cie_reset st).height = st.height ∧
    (cie_reset st).vx = st.vx ∧
    (cie_reset st).vy = st.vy ∧
    (cie_reset st).vz = st.vz ∧
    (cie_reset st).flytime = st.flytime ∧
    (cie_reset st).battery = st.battery ∧
    (cie_reset st).wifi = st.wifi ∧
    (cie_reset st).get_command = st.get_command ∧
    (cie_reset st).rec_command_id = st.rec_command_id :=
  ⟨rfl, rfl, rfl, rfl, rfl, rfl, rfl, rfl, rfl, rfl, rfl, rfl, rfl, rfl, rfl, rfl⟩

/-- Counterexample to C8: a stick send whose first channel is 2048 (outside
[0, 2047]) is not rejected — a frame is built and handed to the transport —
and the overflowing bit silently lands in the speed-flag position: the
payload coincides with that of a speed-1 send of channel 0. -/
theorem claim8_counterexample :
    ((send_to initTello Cmd.stick [2048, 1024, 1024, 1024] [0, 0, 0, 0, 0]).2).isSome = true ∧
    (send_to initTello Cmd.stick [2048, 1024, 1024, 1024] [0, 0, 0, 0, 0]).2 =
      (send_to (speed_switch initTello) Cmd.stick [0, 1024, 1024, 1024] [0, 0, 0, 0, 0]).2 := by
  decide

/-- Claim C8 (amended): `send_to`/`move_to` perform no channel validation:
a stick send is encoded and transmitted for any channel values (here up to
2^14, which keeps the packed integer inside 6 bytes), including values
outside the 11-bit range — they silently corrupt adjacent bit fields rather
than raising `InvalidChannelValue`; the packing only fails (with a
serialization overflow, after the sequence counter was already reset) when
the packed value exceeds 6 bytes. -/
theorem claim8_amended_no_channel_validation (st : Tello) (c0 c1 c2 c3 : Nat)
    (timeB : List Nat) (hs : st.speed ≤ 1)
    (h0 : c0 ≤ 16384) (h1 : c1 ≤ 16384) (h2 : c2 ≤ 16384) (h3 : c3 ≤ 16384)
    (ht : timeB.length = 5) (htb : ∀ b ∈ timeB, b < 256) :
    ((send_to st Cmd.stick [c0, c1, c2, c3] timeB).2).isSome = true := by
  have hbound : (st.speed <<< 44) + (c0 <<< 33) + (c1 <<< 22) + (c2 <<< 11) + c3 < 2 ^ 48 := by
    rw [Nat.shiftLeft_eq, Nat.shiftLeft_eq, Nat.shiftLeft_eq, Nat.shiftLeft_eq]
    norm_num
    omega
  have hmv : move_to st.speed [c0, c1, c2, c3] timeB =
      some (le6 ((st.speed <<< 44) + (c0 <<< 33) + (c1 <<< 22) + (c2 <<< 11) + c3) ++ timeB) := by
    simp only [move_to, List.get?_cons_zero, List.get?_cons_succ, Option.some_bind,
      Option.bind_eq_bind, toBytes6, if_pos hbound]
  have hlen : (le6 ((st.speed <<< 44) + (c0 <<< 33) + (c1 <<< 22) + (c2 <<< 11) + c3)
      ++ timeB).length ≤ 8180 := by
    simp [le6, ht]
  have hbytes : ∀ b ∈ le6 ((st.speed <<< 44) + (c0 <<< 33) + (c1 <<< 22) + (c2 <<< 11) + c3)
      ++ timeB, b < 256 := by
    intro b hb
    rcases List.mem_append.mp hb with h | h
    · simp [le6] at h
      rcases h with h | h | h | h | h | h <;> omega
    · exact htb b h
  have hbp := build_packet_eq (PAC_TYPE_LIST Cmd.stick) (CMD_LIST Cmd.stick) 0
    (le6 ((st.speed <<< 44) + (c0 <<< 33) + (c1 <<< 22) + (c2 <<< 11) + c3) ++ timeB)
    (by decide) (by decide) (by decide) hlen hbytes
  simp [send_to, hmv, hbp]

/-- Witness for the amended C8: channel 2048 is out of range yet the send
goes through. -/
theorem claim8_amended_no_channel_validation_witness :
    ((send_to initTello Cmd.stick [2048, 1024, 1024, 1024] [0, 0, 0, 0, 0]).2).isSome = true :=
  claim8_amended_no_channel_validation initTello 2048 1024 1024 1024 [0, 0, 0, 0, 0]
    (by decide) (by norm_num) (by norm_num) (by norm_num) (by norm_num)
    (by simp) (by decide)

/-! ### Helper lemmas about the receive path -/

theorem rhe_int (n : Int) : rhe (n : ℚ) = n := by
  simp [rhe]

theorem round1_int (n : Int) : round1 (n : ℚ) = n := by
  have h : ((10 : ℚ) * n) = ((10 * n : Int) : ℚ) := by push_cast; ring
  rw [round1, h, rhe_int]
  push_cast
  ring

theorem parse_data_eq (st : Tello) (rec : List Nat) (h : 28 ≤ rec.length) :
    parse_data st rec = { st with
      uptime := rec.getD 7 0 + 255 * rec.getD 8 0,
      height := (rec.getD 9 0 : Int) - rec.getD 10 0,
      vy := (rec.getD 11 0 : Int) - rec.getD 12 0,
      vx := (rec.getD 13 0 : Int) - rec.getD 14 0,
      vz := -((rec.getD 15 0 : Int) - rec.getD 16 0),
      x := st.x + round1 ((((rec.getD 13 0 : Int) - rec.getD 14 0 : Int) : ℚ) / 100),
      y := st.y + round1 ((((rec.getD 11 0 : Int) - rec.getD 12 0 : Int) : ℚ) / 100),
      z := st.z + round1 (((-((rec.getD 15 0 : Int) - rec.getD 16 0) : Int) : ℚ) / 100),
      flytime := rec.getD 17 0 * rec.getD 18 0,
      battery := rec.getD 21 0,
      get_command :=
        Sum.inr (Nat.repr (rec.getD 26 0) ++ " " ++ Nat.repr (rec.getD 27 0)) } := by
  unfold parse_data
  rw [if_pos (by omega), if_pos (by omega), if_pos (by omega), if_pos (by omega),
    if_pos (by omega), if_pos (by omega), if_pos (by omega), if_pos (by omega)]

theorem parse_data_rec_command_id (st : Tello) (rec : List Nat) :
    (parse_data st rec).rec_command_id = st.rec_command_id := by
  unfold parse_data
  repeat' split
  all_goals rfl

theorem get?_eq_some_getD (l : List Nat) (n : Nat) (h : n < l.length) :
    l.get? n = some (l.getD n 0) := by
  rw [List.getD_eq_getElem?_getD, List.get?_eq_getElem?]
  simp [List.getElem?_eq_getElem h]

theorem receive_data_short (st : Tello) (d : List Nat) (h : d.length < 7) :
    receive_data st d = st := by
  have h6 : d.get? 6 = none := List.get?_eq_none.2 (by omega)
  unfold receive_data
  rw [h6]
  rcases d.get? 5 with - | b5 <;> rfl

theorem receive_data_rec_id (st : Tello) (d : List Nat) (b5 b6 : Nat)
    (h5 : d.get? 5 = some b5) (h6 : d.get? 6 = some b6) :
    (receive_data st d).rec_command_id = decConcat b6 b5 := by
  unfold receive_data
  rw [h5, h6]
  dsimp only
  split_ifs
  · cases ssidOfBytes d <;> rfl
  · rcases d.get? 9 with - | b9 <;> rcases d.get? 10 with - | b10 <;> rfl
  · rw [parse_data_rec_command_id]
  · rfl

theorem receive_data_86 (st : Tello) (d : List Nat)
    (h5 : d.get? 5 = some 86) (h6 : d.get? 6 = some 0) :
    receive_data st d = parse_data { st with rec_command_id := 86 } d := by
  unfold receive_data
  rw [h5, h6]
  dsimp only
  have hc : decConcat 0 86 = 86 := by decide
  rw [hc]
  norm_num

/-- An unpacked datagram whose byte differences produce vx = 100 and all
other telemetry values 0 (28 bytes, command id bytes 86/0). -/
def frame100 : List Nat :=
  [0, 0, 0, 0, 0, 86, 0, 0, 0, 0, 0, 0, 0, 100, 0, 0, 0, 0, 0, 0, 0, 0, 0, 0, 0, 0, 0, 0]

/-- Claim C6: the id-86 telemetry reduction sets uptime to
`byte[7] + 255*byte[8]`, height and the velocities to signed differences of
adjacent byte pairs (vz negated), and increments x, y, z by
`round(v/100, 1)` of the just-computed matching velocity; a frame whose
bytes yield vx = 100 adds exactly 1.0 to x, so n such frames accumulate
x by n. -/
theorem claim6_telemetry_reduction (st : Tello) (rec : List Nat) (h : 28 ≤ rec.length) :
    ((parse_data st rec).uptime = rec.getD 7 0 + 255 * rec.getD 8 0 ∧
      (parse_data st rec).height = (rec.getD 9 0 : Int) - rec.getD 10 0 ∧
      (parse_data st rec).vy = (rec.getD 11 0 : Int) - rec.getD 12 0 ∧
      (parse_data st rec).vx = (rec.getD 13 0 : Int) - rec.getD 14 0 ∧
      (parse_data st rec).vz = -((rec.getD 15 0 : Int) - rec.getD 16 0) ∧
      (parse_data st rec).x =
        st.x + round1 ((((rec.getD 13 0 : Int) - rec.getD 14 0 : Int) : ℚ) / 100) ∧
      (parse_data st rec).y =
        st.y + round1 ((((rec.getD 11 0 : Int) - rec.getD 12 0 : Int) : ℚ) / 100) ∧
      (parse_data st rec).z =
        st.z + round1 (((-((rec.getD 15 0 : Int) - rec.getD 16 0) : Int) : ℚ) / 100)) ∧
    ((rec.getD 13 0 : Int) - rec.getD 14 0 = 100 →
      ∀ n : Nat, ((fun s => parse_data s rec)^[n] st).x = st.x + n) := by
  constructor
  · rw [parse_data_eq st rec h]
    exact ⟨rfl, rfl, rfl, rfl, rfl, rfl, rfl, rfl⟩
  · intro h100 n
    have hr : round1 ((((rec.getD 13 0 : Int) - rec.getD 14 0 : Int) : ℚ) / 100) = 1 := by
      rw [h100]
      have h1 : ((100 : Int) : ℚ) / 100 = ((1 : Int) : ℚ) := by push_cast; norm_num
      rw [h1, round1_int]
      norm_num
    induction n with
    | zero => simp
    | succ m ih =>
      rw [Function.iterate_succ_apply']
      have hx : (parse_data ((fun s => parse_data s rec)^[m] st) rec).x =
          ((fun s => parse_data s rec)^[m] st).x +
            round1 ((((rec.getD 13 0 : Int) - rec.getD 14 0 : Int) : ℚ) / 100) := by
        rw [parse_data_eq _ rec h]
      rw [hx, hr, ih]
      push_cast
      ring

/-- Witness for C6: five vx=100 frames starting from the fresh state add 5 to x. -/
theorem claim6_telemetry_reduction_witness :
    (parse_data initTello frame100).uptime =
      frame100.getD 7 0 + 255 * frame100.getD 8 0 ∧
    ((fun s => parse_data s frame100)^[5] initTello).x = initTello.x + (5 : Nat) :=
  ⟨((claim6_telemetry_reduction initTello frame100 (by decide)).1).1,
   (claim6_telemetry_reduction initTello frame100 (by decide)).2 (by decide) 5⟩

/-- A telemetry payload (19 bytes) making the frame 30 bytes long:
vx bytes 100/0, battery byte 55, command-echo bytes 1/2. -/
def telemetryPayload : List Nat :=
  [0, 0, 0, 0, 100, 0, 0, 0, 0, 0, 0, 0, 55, 0, 0, 0, 0, 1, 2]

/-- A well-formed id-86 telemetry datagram: built by the encoder itself,
so both checksums are valid. -/
def goodFrame : List Nat := (build_packet 0x68 86 0 telemetryPayload).getD []

/-- Claim C7: the receive loop is total on datagrams — every per-datagram
failure is caught inside the loop body — so after processing ANY list of
(possibly malformed or hostile) datagrams, the loop is still live and a
subsequent well-formed telemetry frame is reduced correctly: the command id
is recorded, battery and vx take the frame's values, and x advances by
exactly the frame's integrated velocity. -/
theorem claim7_receive_loop_isolation (st : Tello) (ds : List (List Nat)) :
    build_packet 0x68 86 0 telemetryPayload = some goodFrame ∧
    (List.foldl receive_data st (ds ++ [goodFrame])).rec_command_id = 86 ∧
    (List.foldl receive_data st (ds ++ [goodFrame])).battery = 55 ∧
    (List.foldl receive_data st (ds ++ [goodFrame])).vx = 100 ∧
    (List.foldl receive_data st (ds ++ [goodFrame])).x =
      (List.foldl receive_data st ds).x + 1 := by
  have hfold : List.foldl receive_data st (ds ++ [goodFrame]) =
      receive_data (List.foldl receive_data st ds) goodFrame := by
    rw [List.foldl_append, List.foldl_cons, List.foldl_nil]
  have h5 : goodFrame.get? 5 = some 86 := by decide
  have h6 : goodFrame.get? 6 = some 0 := by decide
  have hlen : 28 ≤ goodFrame.length := by decide
  have hrd := receive_data_86 (List.foldl receive_data st ds) goodFrame h5 h6
  have hpe := parse_data_eq
    { List.foldl receive_data st ds with rec_command_id := 86 } goodFrame hlen
  refine ⟨by decide, ?_, ?_, ?_, ?_⟩
  · rw [hfold, hrd, hpe]
  · rw [hfold, hrd, hpe]
    show goodFrame.getD 21 0 = 55
    decide
  · rw [hfold, hrd, hpe]
    show (goodFrame.getD 13 0 : Int) - goodFrame.getD 14 0 = 100
    decide
  · rw [hfold, hrd, hpe]
    show (List.foldl receive_data st ds).x +
        round1 ((((goodFrame.getD 13 0 : Int) - goodFrame.getD 14 0 : Int) : ℚ) / 100) =
      (List.foldl receive_data st ds).x + 1
    have hd : (goodFrame.getD 13 0 : Int) - goodFrame.getD 14 0 = 100 := by decide
    rw [hd]
    have h1 : ((100 : Int) : ℚ) / 100 = ((1 : Int) : ℚ) := by push_cast; norm_num
    rw [h1, round1_int]
    norm_num

/-- Counterexample to C2: a datagram whose embedded CRC8 and CRC16 bytes do
NOT match the recomputed checksums is nevertheless dispatched and mutates
the drone state (wifi and the received command id change), and a frame
shorter than the 11-byte minimum still mutates the received command id
instead of being rejected as truncated. -/
theorem claim2_counterexample :
    CRC8_FUNC (([0, 0, 0, 0, 0, 26, 0, 0, 0, 7, 0] : List Nat).take 3) ≠
      ([0, 0, 0, 0, 0, 26, 0, 0, 0, 7, 0] : List Nat).getD 3 0 ∧
    CRC16_FUNC (([0, 0, 0, 0, 0, 26, 0, 0, 0, 7, 0] : List Nat).take 9) ≠
      ([0, 0, 0, 0, 0, 26, 0, 0, 0, 7, 0] : List Nat).getD 9 0 +
        256 * ([0, 0, 0, 0, 0, 26, 0, 0, 0, 7, 0] : List Nat).getD 10 0 ∧
    (receive_data initTello [0, 0, 0, 0, 0, 26, 0, 0, 0, 7, 0]).wifi = 7 ∧
    initTello.wifi = 0 ∧
    ([0, 0, 0, 0, 0, 26, 0] : List Nat).length < 11 ∧
    (receive_data initTello [0, 0, 0, 0, 0, 26, 0]).rec_command_id = 26 ∧
    initTello.rec_command_id = 0 := by
  decide

/-- Claim C2 (amended): the receive path re-derives NO checksums: any
datagram with at least 7 bytes is dispatched by its command id regardless
of the checksum bytes (and may mutate the drone state); a datagram too
short for even the command-id bytes raises internally, the exception is
caught and the state is left unchanged — there are no distinct
`ChecksumError`/`TruncatedFrame` outcomes. -/
theorem claim2_amended_no_checksum_validation (st : Tello) (d : List Nat) :
    (7 ≤ d.length →
      (receive_data st d).rec_command_id = decConcat (d.getD 6 0) (d.getD 5 0)) ∧
    (d.length < 7 → receive_data st d = st) := by
  constructor
  · intro h
    exact receive_data_rec_id st d (d.getD 5 0) (d.getD 6 0)
      (get?_eq_some_getD d 5 (by omega)) (get?_eq_some_getD d 6 (by omega))
  · exact receive_data_short st d

/-- Witness for the amended C2: the checksum-less id-26 datagram from the
counterexample is dispatched by command id. -/
theorem claim2_amended_no_checksum_validation_witness :
    (receive_data initTello [0, 0, 0, 0, 0, 26, 0, 0, 0, 7, 0]).rec_command_id =
      decConcat (([0, 0, 0, 0, 0, 26, 0, 0, 0, 7, 0] : List Nat).getD 6 0)
        (([0, 0, 0, 0, 0, 26, 0, 0, 0, 7, 0] : List Nat).getD 5 0) :=
  (claim2_amended_no_checksum_validation initTello
    [0, 0, 0, 0, 0, 26, 0, 0, 0, 7, 0]).1 (by norm_num)

/-- Counterexample to C4: encoding command id 256 and decoding the result
yields command id 10 (decimal-string concatenation of the bytes 1 and 0),
not 256 — the round-trip law fails for ids above one byte. -/
theorem claim4_counterexample :
    build_packet 0x68 256 0 [] = some [204, 88, 0, 124, 104, 0, 1, 0, 0, 148, 116] ∧
    decConcat (([204, 88, 0, 124, 104, 0, 1, 0, 0, 148, 116] : List Nat).getD 6 0)
      (([204, 88, 0, 124, 104, 0, 1, 0, 0, 148, 116] : List Nat).getD 5 0) = 10 ∧
    (receive_data initTello [204, 88, 0, 124, 104, 0, 1, 0, 0, 148, 116]).rec_command_id
      = 10 ∧
    (10 : Nat) ≠ 256 := by
  decide

theorem packet_getD_fields (pt cmd seq : Nat) (data p : List Nat)
    (hp : build_packet pt cmd seq data = some p) :
    p.getD 4 0 = pt ∧ p.getD 5 0 = cmd % 256 ∧ p.getD 6 0 = cmd / 256 % 256 ∧
    (p.drop 9).take data.length = data ∧ 7 ≤ p.length := by
  obtain ⟨-, -, rfl⟩ := build_packet_inv pt cmd seq data p hp
  rw [packetBody_cons]
  refine ⟨rfl, rfl, rfl, ?_, ?_⟩
  · show ((data ++
        le2 (CRC16_FUNC (packetBody pt cmd seq data))).take data.length) = data
    exact List.take_left data _
  · simp [le2]

/-- Claim C4 (amended): the encode/decode round trip recovers type,
sequence, payload, and — provided the command id fits in one byte, as all
catalogued ids do — the decimal-concatenation decode of bytes 6 and 5 also
recovers the command id, and feeding the encoded frame to the receive path
records exactly that id. -/
theorem claim4_amended_roundtrip (pt cmd seq : Nat) (data p : List Nat) (st : Tello)
    (h1 : pt < 256) (h2 : cmd < 256) (h3 : seq < 65536) (h4 : data.length ≤ 8180)
    (h5 : ∀ b ∈ data, b < 256) (hp : build_packet pt cmd seq data = some p) :
    p.getD 4 0 = pt ∧
    p.getD 7 0 + 256 * p.getD 8 0 = seq ∧
    (p.drop 9).take data.length = data ∧
    decConcat (p.getD 6 0) (p.getD 5 0) = cmd ∧
    (receive_data st p).rec_command_id = cmd := by
  obtain ⟨hf4, hf5, hf6, hf9, hflen⟩ := packet_getD_fields pt cmd seq data p hp
  have hdec : decConcat (p.getD 6 0) (p.getD 5 0) = cmd := by
    have hcmd5 : p.getD 5 0 = cmd := by omega
    have hcmd6 : p.getD 6 0 = 0 := by omega
    rw [hcmd5, hcmd6, decConcat]
    simp
  refine ⟨hf4, packet_seq_field pt cmd seq data p hp, hf9, hdec, ?_⟩
  rw [receive_data_rec_id st p (p.getD 5 0) (p.getD 6 0)
    (get?_eq_some_getD p 5 (by omega)) (get?_eq_some_getD p 6 (by omega))]
  exact hdec

/-- Witness for the amended C4: the concrete takeoff frame decodes back to
command id 84. -/
theorem claim4_amended_roundtrip_witness :
    ([204, 88, 0, 124, 104, 84, 0, 1, 0, 106, 144] : List Nat).getD 4 0 = 0x68 ∧
    ([204, 88, 0, 124, 104, 84, 0, 1, 0, 106, 144] : List Nat).getD 7 0 +
      256 * ([204, 88, 0, 124, 104, 84, 0, 1, 0, 106, 144] : List Nat).getD 8 0 = 1 ∧
    (([204, 88, 0, 124, 104, 84, 0, 1, 0, 106, 144] : List Nat).drop 9).take
      ([] : List Nat).length = ([] : List Nat) ∧
    decConcat (([204, 88, 0, 124, 104, 84, 0, 1, 0, 106, 144] : List Nat).getD 6 0)
      (([204, 88, 0, 124, 104, 84, 0, 1, 0, 106, 144] : List Nat).getD 5 0) = 84 ∧
    (receive_data initTello [204, 88, 0, 124, 104, 84, 0, 1, 0, 106, 144]).rec_command_id
      = 84 :=
  claim4_amended_roundtrip 0x68 84 1 [] [204, 88, 0, 124, 104, 84, 0, 1, 0, 106, 144]
    initTello (by norm_num) (by norm_num) (by norm_num) (by simp) (by simp) (by decide)
